import Mathlib

/-!
Verification development for the DreamVault repository.

Shallow embedding of:
* `src/dreamvault/core/queue.py` (`JobQueue` over the SQLite `jobs` table),
* `src/dreamvault/core/rate_limit.py` (`LeakyBucket`, `RateLimiter`),
* `src/dreamvault/scrapers/adaptive_extractor.py`
  (`_extract_conversations_with_scrolling`, `_fallback_extraction`).

Modelling conventions:
* The SQLite `jobs` table is a `List Job`; an SQL `UPDATE ... WHERE p` is a
  `List.map` that rewrites exactly the rows satisfying `p`, and the returned
  `cursor.rowcount` is the number of rows matched (`List.countP`).
  `AUTOINCREMENT` ids come from a `next_id` counter.
* `CURRENT_TIMESTAMP` / `time.time()` are explicit `now` parameters
  (`Nat` for SQL timestamps, `ℚ` for the rate limiter's float clock).
* Python floats in the leaky bucket are modelled as exact rationals `ℚ`;
  the claims under study are about control flow and order, not rounding.
* Python dicts keyed by strings are association lists `List (String × _)`;
  mutation of a bucket object obtained from a dict is modelled by writing
  the updated bucket back under the key it was found at.
-/

/-! ## Job queue (`src/dreamvault/core/queue.py`) -/

/-- The `JobStatus` enumeration (queue.py lines 14-20). -/
inductive JobStatus where
  | pending
  | processing
  | completed
  | failed
  | retry
deriving DecidableEq, Repr

/-- One row of the `jobs` table (queue.py `_init_db`, lines 40-56). -/
structure Job where
  id : Nat
  conversation_id : String
  status : JobStatus
  priority : Int
  created_at : Nat
  started_at : Option Nat
  completed_at : Option Nat
  retry_count : Nat
  max_retries : Nat
  error_message : Option String
  metadata : Option String
  content_hash : String
  prompt_hash : String
deriving DecidableEq, Repr

/-- The queue database: the `jobs` table plus the `AUTOINCREMENT` counter. -/
structure QueueState where
  jobs : List Job
  next_id : Nat
deriving DecidableEq, Repr

namespace JobQueue

/-- Function `add_job` (queue.py lines 75-105): `INSERT OR IGNORE` against the
`UNIQUE` constraint on `conversation_id`; returns `rowcount > 0`. -/
def add_job (st : QueueState) (conversation_id : String) (priority : Int)
    (metadata : Option String) (content_hash prompt_hash : String)
    (now : Nat) : QueueState × Bool :=
  if ∃ j ∈ st.jobs, j.conversation_id = conversation_id then
    (st, false)
  else
    ({ jobs := st.jobs ++
        [{ id := st.next_id
           conversation_id := conversation_id
           status := JobStatus.pending
           priority := priority
           created_at := now
           started_at := none
           completed_at := none
           retry_count := 0
           max_retries := 3
           error_message := none
           metadata := metadata
           content_hash := content_hash
           prompt_hash := prompt_hash }]
       next_id := st.next_id + 1 }, true)

/-- Function `start_job` (queue.py lines 138-155): conditional
`UPDATE ... SET status='processing', started_at=now WHERE id=? AND status='pending'`;
returns `rowcount > 0`. -/
def start_job (st : QueueState) (job_id : Nat) (now : Nat) : QueueState × Bool :=
  ({ st with jobs := st.jobs.map (fun j =>
      if j.id = job_id ∧ j.status = JobStatus.pending then
        { j with status := JobStatus.processing, started_at := some now }
      else j) },
   decide (0 < st.jobs.countP
      (fun j => decide (j.id = job_id ∧ j.status = JobStatus.pending))))

/-- Function `fail_job` (queue.py lines 176-209): `SELECT retry_count, max_retries
WHERE id=?` (first row), then either the retry `UPDATE` or the failed
`UPDATE`, both `WHERE id=?`; returns `rowcount > 0` of the `UPDATE`. -/
def fail_job (st : QueueState) (job_id : Nat) (error_message : String)
    (now : Nat) : QueueState × Bool :=
  let row := st.jobs.find? (fun j => decide (j.id = job_id))
  let retryOk : Bool := match row with
    | some j => decide (j.retry_count < j.max_retries)
    | none => false
  let jobs := if retryOk then
      st.jobs.map (fun j =>
        if j.id = job_id then
          { j with status := JobStatus.retry
                   retry_count := j.retry_count + 1
                   error_message := some error_message
                   started_at := none }
        else j)
    else
      st.jobs.map (fun j =>
        if j.id = job_id then
          { j with status := JobStatus.failed
                   error_message := some error_message
                   completed_at := some now }
        else j)
  ({ st with jobs := jobs },
   decide (0 < st.jobs.countP (fun j => decide (j.id = job_id))))

/-- Iterating `fail_job` on the same job id (used by the spec's
"`MarkFailed` applied `maxRetries+1` times in a row" scenario). -/
def iterate_fail (st : QueueState) (job_id : Nat) (error_message : String)
    (now : Nat) : Nat → QueueState
  | 0 => st
  | k + 1 =>
      iterate_fail (fail_job st job_id error_message now).1 job_id
        error_message now k

/-- Function `reset_failed_jobs` (queue.py lines 287-306):
`UPDATE jobs SET status='pending', retry_count=0, error_message=NULL
WHERE status='failed'`; returns `rowcount`. -/
def reset_failed_jobs (st : QueueState) : QueueState × Nat :=
  ({ st with jobs := st.jobs.map (fun j =>
      if j.status = JobStatus.failed then
        { j with status := JobStatus.pending
                 retry_count := 0
                 error_message := none }
      else j) },
   st.jobs.countP (fun j => decide (j.status = JobStatus.failed)))

/-- The dictionary returned by `get_queue_stats`. -/
structure QueueStats where
  total : Nat
  pending : Nat
  by_status : JobStatus → Nat

/-- Function `get_queue_stats` (queue.py lines 231-264): `by_status` is the
`GROUP BY status` counts, `total` is `COUNT(*)`, and `pending` is
`COUNT(*) WHERE status IN ('pending', 'retry')`. -/
def get_queue_stats (st : QueueState) : QueueStats :=
  { total := st.jobs.length
    pending := st.jobs.countP (fun j =>
      decide (j.status = JobStatus.pending ∨ j.status = JobStatus.retry))
    by_status := fun s => st.jobs.countP (fun j => decide (j.status = s)) }

end JobQueue

/-! ## Rate limiter (`src/dreamvault/core/rate_limit.py`) -/

/-- A leaky bucket (rate_limit.py lines 11-26).  Floats are modelled as
exact rationals; the wall clock `time.time()` is an explicit `now`. -/
structure LeakyBucket where
  capacity : ℚ
  leak_rate : ℚ
  tokens : ℚ
  last_update : ℚ
deriving DecidableEq, Repr

namespace LeakyBucket

/-- Method `_leak_tokens` (rate_limit.py lines 28-35): lazy refill
`tokens := min(capacity, tokens + (now - last_update) * leak_rate)`. -/
def leak_tokens (b : LeakyBucket) (now : ℚ) : LeakyBucket :=
  { b with tokens := min b.capacity (b.tokens + (now - b.last_update) * b.leak_rate)
           last_update := now }

/-- Method `LeakyBucket.try_acquire` (rate_limit.py lines 37-53): leak, then debit
`n` tokens if at least `n` are present.  (The Python parameter is also
named `tokens`; it is renamed `n` here to avoid clashing with the field.) -/
def try_acquire (b : LeakyBucket) (now : ℚ) (n : ℚ) : LeakyBucket × Bool :=
  let b := b.leak_tokens now
  if n ≤ b.tokens then ({ b with tokens := b.tokens - n }, true)
  else (b, false)

end LeakyBucket

/-- Class `RateLimiter` (rate_limit.py lines 106-142).  The `chatgpt` config dict
entries used by `_get_chatgpt_bucket` are the `gpt4o_mini.auto_throttle`
flag and `gpt4o_mini.fallback_to` key (default `"gpt4o"`), carried as
fields; `chatgpt_buckets` and `host_buckets` are association lists. -/
structure RateLimiter where
  global_bucket : LeakyBucket
  host_buckets : List (String × LeakyBucket)
  host_rpm : ℚ
  host_burst : ℚ
  chatgpt_buckets : List (String × LeakyBucket)
  gpt4o_mini_auto_throttle : Bool
  gpt4o_mini_fallback : String
deriving DecidableEq, Repr

namespace RateLimiter

/-- Method `_get_chatgpt_bucket` (rate_limit.py lines 176-188): direct lookup,
else the `gpt4o_mini` auto-throttle alias borrows the configured fallback
model's bucket, else no bucket. -/
def get_chatgpt_bucket (rl : RateLimiter) (model : String) : Option LeakyBucket :=
  match List.lookup model rl.chatgpt_buckets with
  | some b => some b
  | none =>
      if model = "gpt4o_mini" then
        if rl.gpt4o_mini_auto_throttle then
          List.lookup rl.gpt4o_mini_fallback rl.chatgpt_buckets
        else none
      else none

/-- The dict key under which `_get_chatgpt_bucket` found the bucket,
i.e. the key whose entry is mutated when that bucket is debited. -/
def chatgpt_bucket_key (rl : RateLimiter) (model : String) : Option String :=
  match List.lookup model rl.chatgpt_buckets with
  | some _ => some model
  | none =>
      if model = "gpt4o_mini" then
        if rl.gpt4o_mini_auto_throttle then
          match List.lookup rl.gpt4o_mini_fallback rl.chatgpt_buckets with
          | some _ => some rl.gpt4o_mini_fallback
          | none => none
        else none
      else none

/-- Write an updated bucket back under dict key `k` (the Lean rendering of
Python's in-place mutation of the bucket object stored at `k`). -/
def write_bucket (l : List (String × LeakyBucket)) (k : String)
    (b : LeakyBucket) : List (String × LeakyBucket) :=
  l.map (fun p => if p.1 = k then (k, b) else p)

/-- Method `_get_host_bucket` (rate_limit.py lines 190-198): get-or-create; a new
bucket starts full (`tokens = capacity`) with `last_update = now`. -/
def get_host_bucket (rl : RateLimiter) (h : String) (now : ℚ) :
    RateLimiter × LeakyBucket :=
  match List.lookup h rl.host_buckets with
  | some b => (rl, b)
  | none =>
      let b : LeakyBucket :=
        { capacity := rl.host_burst
          leak_rate := rl.host_rpm / 60
          tokens := rl.host_burst
          last_update := now }
      ({ rl with host_buckets := rl.host_buckets ++ [(h, b)] }, b)

/-- The host paragraph of `RateLimiter.try_acquire` (rate_limit.py lines
216-220): when a host is given, get-or-create its bucket and try to debit
it. -/
def host_step (rl : RateLimiter) (host : Option String) (n now : ℚ) :
    RateLimiter × Bool :=
  match host with
  | none => (rl, true)
  | some h =>
      let gb := rl.get_host_bucket h now
      let hres := gb.2.try_acquire now n
      ({ gb.1 with host_buckets := write_bucket gb.1.host_buckets h hres.1 },
       hres.2)

/-- The model paragraph of `RateLimiter.try_acquire` (rate_limit.py lines
222-226): when a model is given and `_get_chatgpt_bucket` resolves to a
bucket, try to debit that bucket (under the dict key it lives at);
otherwise the model check is skipped. -/
def model_step (rl : RateLimiter) (model : Option String) (n now : ℚ) :
    RateLimiter × Bool :=
  match model with
  | none => (rl, true)
  | some m =>
      match rl.get_chatgpt_bucket m, rl.chatgpt_bucket_key m with
      | some b, some k =>
          let mres := b.try_acquire now n
          ({ rl with chatgpt_buckets := write_bucket rl.chatgpt_buckets k mres.1 },
           mres.2)
      | _, _ => (rl, true)

/-- Method `RateLimiter.try_acquire` (rate_limit.py lines 200-228): global bucket
first (early return on failure), then the host bucket if a host is given,
then the ChatGPT model bucket if a model is given and resolves to a bucket.
Each bucket is debited as it is checked; there is no rollback. -/
def try_acquire (rl : RateLimiter) (host : Option String) (n : ℚ)
    (model : Option String) (now : ℚ) : RateLimiter × Bool :=
  let gres := rl.global_bucket.try_acquire now n
  let rl := { rl with global_bucket := gres.1 }
  if gres.2 = false then (rl, false)
  else
    let hstep := host_step rl host n now
    if hstep.2 = false then (hstep.1, false)
    else model_step hstep.1 model n now

end RateLimiter

/-! ## Adaptive extractor (`src/dreamvault/scrapers/adaptive_extractor.py`) -/

/-- A DOM element as the extraction loops see it: the resolved conversation
link target and the element text.  The span-vs-parent `href` resolution and
`get_attribute` are collapsed into the `href` field; a Selenium exception
while reading an element is modelled as `href = none` (the code's
`except: continue`). -/
structure Elem where
  href : Option String
  text : String
deriving DecidableEq, Repr

/-- One extracted conversation record (the dict
`{"id": ..., "title": ..., "url": ...}`). -/
structure Conv where
  id : String
  title : String
  url : String
deriving DecidableEq, Repr

/-- Python list/`str` prefix test on character lists. -/
def listStartsWith : List Char → List Char → Bool
  | [], _ => true
  | _ :: _, [] => false
  | p :: ps, c :: cs => p = c && listStartsWith ps cs

/-- Python `pat in s` substring test on character lists. -/
def listContainsSub (p : List Char) : List Char → Bool
  | [] => listStartsWith p []
  | c :: cs => listStartsWith p (c :: cs) || listContainsSub p cs

/-- Python `pat in s` on strings. -/
def strContains (s pat : String) : Bool :=
  listContainsSub pat.data s.data

/-- Python `href.split("/c/")[-1]`. -/
def splitLast (h : String) : String :=
  (h.splitOn "/c/").getLastD ""

/-- Drop leading whitespace from a character list. -/
def dropLeadingWs : List Char → List Char
  | [] => []
  | c :: cs => if c.isWhitespace then dropLeadingWs cs else c :: cs

/-- Python `str.strip()`: drop leading and trailing whitespace. -/
def pyStrip (s : String) : String :=
  String.mk (dropLeadingWs (dropLeadingWs s.data).reverse).reverse

namespace AdaptiveExtractor

/-- The per-iteration extraction pass inside
`_extract_conversations_with_scrolling` (adaptive_extractor.py lines
181-205): walk `enumerate(elements)`, keep an element when its `href` is
non-empty, its stripped text is non-empty, `"/c/" in href`, and the href is
not yet in `seen_urls`; append the record, add the href to `seen_urls` and
bump `new_conversations`. -/
def extractNew (i : Nat) (convs : List Conv) (seen : List String)
    (newCount : Nat) : List Elem → List Conv × List String × Nat
  | [] => (convs, seen, newCount)
  | e :: rest =>
      match e.href with
      | none => extractNew (i + 1) convs seen newCount rest
      | some h =>
          let title := pyStrip e.text
          if h ≠ "" && title ≠ "" && strContains h "/c/" && !(seen.contains h) then
            let conv : Conv :=
              { id := if strContains h "/c/" then splitLast h
                      else "conv_" ++ toString i
                title := title
                url := h }
            extractNew (i + 1) (convs ++ [conv]) (h :: seen) (newCount + 1) rest
          else extractNew (i + 1) convs seen newCount rest

/-- The `while scroll_attempts < max_scroll_attempts` loop of
`_extract_conversations_with_scrolling` (adaptive_extractor.py lines
173-246).  `views k` is what `driver.find_elements` returns when
`scroll_attempts = k` (the driver may keep producing new elements forever).
`fuel` mirrors `max_scroll_attempts - scroll_attempts`, so the guard
`scroll_attempts < max_scroll_attempts` is `fuel > 0`.  The pair returned
is `(conversations, scroll_attempts)`; the attempt count is returned only
to let theorems speak about the number of iterations performed. -/
def scrollLoopAux (views : Nat → List Elem) :
    Nat → Nat → List Conv → List String → Nat → Nat → List Conv × Nat
  | 0, attempts, convs, _, _, _ => (convs, attempts)
  | fuel + 1, attempts, convs, seen, lastCount, noNew =>
      let ex := extractNew 0 convs seen 0 (views attempts)
      let convs := ex.1
      let seen := ex.2.1
      let newCount := ex.2.2
      if newCount = 0 ∧ noNew + 1 ≥ 3 then
        -- `no_new_conversations_count >= 3` break, before the increment
        (convs, attempts)
      else
        let noNew := if newCount = 0 then noNew + 1 else 0
        let attempts := attempts + 1
        if convs.length = lastCount then
          if attempts > 10 then (convs, attempts)
          else scrollLoopAux views fuel attempts convs seen lastCount noNew
        else scrollLoopAux views fuel attempts convs seen convs.length noNew

/-- Method `_extract_conversations_with_scrolling` (adaptive_extractor.py lines
163-248): `max_scroll_attempts = 50`, starting from empty `conversations`
and `seen_urls`, `last_count = 0`, `no_new_conversations_count = 0`. -/
def extract_conversations_with_scrolling (views : Nat → List Elem) :
    List Conv × Nat :=
  scrollLoopAux views 50 0 [] [] 0 0

/-- Method `_fallback_extraction` (adaptive_extractor.py lines 324-358): walk every
`<a>` element, keep those with a non-empty href, non-empty stripped text and
`"/c/" in href` — with no `seen_urls` de-duplication. -/
def fallback_extraction : List Elem → List Conv
  | [] => []
  | e :: rest =>
      match e.href with
      | none => fallback_extraction rest
      | some h =>
          let text := pyStrip e.text
          if h ≠ "" && text ≠ "" && strContains h "/c/" then
            { id := splitLast h, title := text, url := h } ::
              fallback_extraction rest
          else fallback_extraction rest

end AdaptiveExtractor

/-! ## Specification-side helper definitions -/

/-- At most one job per `conversation_id` (the `UNIQUE` key invariant the
spec asserts for every `Enqueue` sequence). -/
def conv_unique (st : QueueState) : Prop :=
  ∀ cid : String,
    st.jobs.countP (fun j => decide (j.conversation_id = cid)) ≤ 1

/-- One scheduled call against a leaky bucket: let `dt` seconds elapse,
then `try_acquire n`. -/
structure AcqStep where
  dt : ℚ
  n : ℚ
deriving DecidableEq, Repr

/-- Run a sequence of timed `try_acquire` calls against a bucket. -/
def run_steps (b : LeakyBucket) : List AcqStep → LeakyBucket
  | [] => b
  | s :: rest => run_steps (b.try_acquire (b.last_update + s.dt) s.n).1 rest

/-- An element the scrolling extraction pass cannot turn into a new record
given the de-duplication set `seen`: its href is missing or empty, its text
strips to empty, it is not a `/c/` conversation link, or its href was
already seen. -/
def blockedElem (seen : List String) (e : Elem) : Prop :=
  ∀ h : String, e.href = some h →
    h = "" ∨ pyStrip e.text = "" ∨ strContains h "/c/" = false ∨
      seen.contains h = true

/-! ## Concrete fixtures used by witnesses and counterexamples -/

/-- A sample job record used as a base for concrete queue states. -/
def sampleJob : Job :=
  { id := 7, conversation_id := "c", status := JobStatus.pending,
    priority := 0, created_at := 0, started_at := none, completed_at := none,
    retry_count := 0, max_retries := 3, error_message := none,
    metadata := none, content_hash := "", prompt_hash := "" }

/-- A full global bucket (5 of 5 tokens, zero leak, clock at 0). -/
def fullGlobalBucket : LeakyBucket :=
  { capacity := 5, leak_rate := 0, tokens := 5, last_update := 0 }

/-- An exhausted model bucket (0 of 10 tokens, zero leak, clock at 0). -/
def emptyModelBucket : LeakyBucket :=
  { capacity := 10, leak_rate := 0, tokens := 0, last_update := 0 }

/-- A rate limiter whose global bucket has tokens but whose `gpt4o` model
bucket is exhausted. -/
def sampleLimiter : RateLimiter :=
  { global_bucket := fullGlobalBucket
    host_buckets := []
    host_rpm := 0
    host_burst := 0
    chatgpt_buckets := [("gpt4o", emptyModelBucket)]
    gpt4o_mini_auto_throttle := false
    gpt4o_mini_fallback := "gpt4o" }

/-- A conversation link element as the fallback extractor sees it. -/
def sampleLink : Elem :=
  { href := some "https://chatgpt.com/c/abc", text := "Chat" }

/-- The sample limiter with the `gpt4o_mini` auto-throttle flag set, so the
alias model borrows the `gpt4o` bucket. -/
def aliasLimiter : RateLimiter :=
  { sampleLimiter with gpt4o_mini_auto_throttle := true }

/-! ## Theorems about the job queue -/

/-- C10: in the `get_queue_stats` snapshot, the reported `pending` count is
the number of Pending jobs plus the number of Retry jobs (the SQL
`status IN ('pending','retry')` count), while `by_status` reports each
status separately. -/
theorem queue_stats_pending_counts (st : QueueState) :
    (JobQueue.get_queue_stats st).pending =
      (JobQueue.get_queue_stats st).by_status JobStatus.pending +
        (JobQueue.get_queue_stats st).by_status JobStatus.retry := by
  simp only [JobQueue.get_queue_stats]
  induction st.jobs with
  | nil => rfl
  | cons j tl ih =>
      simp only [List.countP_cons, ih]
      cases h : j.status <;> simp [h] <;> omega

/-- C9: `reset_failed_jobs` returns the number of Failed jobs, keeps the
table the same length, rewrites each Failed job to Pending with
`retry_count = 0` and `error_message` cleared, and leaves every job in any
other status (in particular Retry) entirely unchanged. -/
theorem reset_failed_jobs_frame (st : QueueState) :
    (JobQueue.reset_failed_jobs st).2 =
      st.jobs.countP (fun j => decide (j.status = JobStatus.failed))
    ∧ (JobQueue.reset_failed_jobs st).1.jobs.length = st.jobs.length
    ∧ ∀ i : Nat, ∀ j : Job, st.jobs[i]? = some j →
        (j.status = JobStatus.failed →
          (JobQueue.reset_failed_jobs st).1.jobs[i]? =
            some { j with status := JobStatus.pending
                          retry_count := 0
                          error_message := none })
        ∧ (j.status ≠ JobStatus.failed →
          (JobQueue.reset_failed_jobs st).1.jobs[i]? = some j) := by
  refine ⟨rfl, by simp [JobQueue.reset_failed_jobs], ?_⟩
  intro i j hij
  constructor
  · intro hfail
    simp [JobQueue.reset_failed_jobs, List.getElem?_map, hij, hfail]
  · intro hother
    simp [JobQueue.reset_failed_jobs, List.getElem?_map, hij, hother]

/-- Witness for C9 on a two-job queue (one Failed job, one Retry job). -/
theorem reset_failed_jobs_frame_witness :
    (JobQueue.reset_failed_jobs
        { jobs := [{ id := 1, conversation_id := "a", status := JobStatus.failed,
                     priority := 0, created_at := 0, started_at := none,
                     completed_at := none, retry_count := 2, max_retries := 3,
                     error_message := some "boom", metadata := none,
                     content_hash := "", prompt_hash := "" },
                   { id := 2, conversation_id := "b", status := JobStatus.retry,
                     priority := 0, created_at := 0, started_at := none,
                     completed_at := none, retry_count := 1, max_retries := 3,
                     error_message := some "x", metadata := none,
                     content_hash := "", prompt_hash := "" }], next_id := 3 }).1.jobs[1]? =
      some { id := 2, conversation_id := "b", status := JobStatus.retry,
             priority := 0, created_at := 0, started_at := none,
             completed_at := none, retry_count := 1, max_retries := 3,
             error_message := some "x", metadata := none,
             content_hash := "", prompt_hash := "" } :=
  (((reset_failed_jobs_frame _).2.2 1 _ (by decide)).2 (by decide))

/-- C1: `start_job` returns true exactly when the addressed job is
currently Pending (the conditional `UPDATE` matches); when that job is not
Pending it returns false and the whole queue state is unchanged; when it is
Pending, exactly that job is rewritten to Processing with `started_at`
stamped. -/
theorem start_job_pending_iff (st : QueueState) (job_id now : Nat) (j : Job)
    (hj : j ∈ st.jobs) (hid : j.id = job_id)
    (huniq : ∀ j' ∈ st.jobs, j'.id = job_id → j' = j) :
    ((JobQueue.start_job st job_id now).2 = true ↔ j.status = JobStatus.pending)
    ∧ (j.status ≠ JobStatus.pending → (JobQueue.start_job st job_id now).1 = st)
    ∧ (j.status = JobStatus.pending →
        (JobQueue.start_job st job_id now).1.jobs =
          st.jobs.map (fun x =>
            if x = j then
              { j with status := JobStatus.processing, started_at := some now }
            else x)) := by
  refine ⟨?_, ?_, ?_⟩
  · simp only [JobQueue.start_job, decide_eq_true_eq, List.countP_pos_iff,
      decide_eq_true_eq]
    constructor
    · rintro ⟨x, hx, hxid, hxp⟩
      rwa [huniq x hx hxid] at hxp
    · intro hp
      exact ⟨j, hj, hid, hp⟩
  · intro hnp
    simp only [JobQueue.start_job]
    have : st.jobs.map (fun x =>
        if x.id = job_id ∧ x.status = JobStatus.pending then
          { x with status := JobStatus.processing, started_at := some now }
        else x) = st.jobs := by
      rw [show st.jobs.map (fun x =>
            if x.id = job_id ∧ x.status = JobStatus.pending then
              { x with status := JobStatus.processing, started_at := some now }
            else x) = st.jobs.map id from ?_, List.map_id]
      refine List.map_congr_left (fun x hx => ?_)
      rw [if_neg, id]
      rintro ⟨hxid, hxp⟩
      exact hnp (huniq x hx hxid ▸ hxp)
    rw [this]
  · intro hp
    simp only [JobQueue.start_job]
    refine List.map_congr_left (fun x hx => ?_)
    by_cases hxj : x = j
    · subst hxj
      rw [if_pos ⟨hid, hp⟩, if_pos rfl]
    · rw [if_neg, if_neg hxj]
      rintro ⟨hxid, _⟩
      exact hxj (huniq x hx hxid)

/-- Witness for C1: a non-Pending (Retry) job is left unchanged and
`start_job` returns false; applied at a concrete one-job queue. -/
theorem start_job_pending_iff_witness :
    (JobQueue.start_job
        { jobs := [{ sampleJob with status := JobStatus.retry }], next_id := 8 }
        7 11).1 =
      { jobs := [{ sampleJob with status := JobStatus.retry }], next_id := 8 }
    ∧ (JobQueue.start_job
        { jobs := [{ sampleJob with status := JobStatus.retry }], next_id := 8 }
        7 11).2 = false := by
  have h := start_job_pending_iff
    { jobs := [{ sampleJob with status := JobStatus.retry }], next_id := 8 }
    7 11 { sampleJob with status := JobStatus.retry }
    (by simp) (by decide)
    (by intro j' hj' hid'; simpa using hj')
  refine ⟨h.2.1 (by decide), ?_⟩
  have hiff := h.1
  cases hres : (JobQueue.start_job
      { jobs := [{ sampleJob with status := JobStatus.retry }], next_id := 8 }
      7 11).2
  · rfl
  · exact absurd (hiff.mp hres) (by decide)

/-- C5: `add_job` is idempotent on `conversation_id`: a duplicate enqueue
inserts nothing, changes nothing and returns false; a fresh enqueue appends
exactly one Pending job with that key and returns true; and the
at-most-one-job-per-`conversation_id` invariant is preserved. -/
theorem add_job_idempotent (st : QueueState) (cid : String) (priority : Int)
    (metadata : Option String) (content_hash prompt_hash : String) (now : Nat) :
    ((∃ j ∈ st.jobs, j.conversation_id = cid) →
        JobQueue.add_job st cid priority metadata content_hash prompt_hash now
          = (st, false))
    ∧ (¬ (∃ j ∈ st.jobs, j.conversation_id = cid) →
        (JobQueue.add_job st cid priority metadata content_hash prompt_hash
            now).2 = true
        ∧ ∃ jn : Job,
            (JobQueue.add_job st cid priority metadata content_hash prompt_hash
                now).1.jobs = st.jobs ++ [jn]
            ∧ jn.conversation_id = cid ∧ jn.status = JobStatus.pending)
    ∧ (conv_unique st →
        conv_unique (JobQueue.add_job st cid priority metadata content_hash
          prompt_hash now).1) := by
  refine ⟨?_, ?_, ?_⟩
  · intro hdup
    simp only [JobQueue.add_job, if_pos hdup]
  · intro hfresh
    simp only [JobQueue.add_job, if_neg hfresh]
    exact ⟨trivial, _, rfl, rfl, rfl⟩
  · intro huniq
    by_cases hdup : ∃ j ∈ st.jobs, j.conversation_id = cid
    · simpa only [JobQueue.add_job, if_pos hdup] using huniq
    · simp only [JobQueue.add_job, if_neg hdup]
      intro cid'
      rw [List.countP_append]
      by_cases hc : cid' = cid
      · subst hc
        have hz : st.jobs.countP (fun j => decide (j.conversation_id = cid')) = 0 := by
          rw [List.countP_eq_zero]
          intro j hjmem
          simp only [decide_eq_true_eq]
          exact fun hjc => hdup ⟨j, hjmem, hjc⟩
        simp [hz, List.countP_cons]
      · have : List.countP (fun j => decide (j.conversation_id = cid'))
            ([{ id := st.next_id, conversation_id := cid,
                status := JobStatus.pending, priority := priority,
                created_at := now, started_at := none, completed_at := none,
                retry_count := 0, max_retries := 3, error_message := none,
                metadata := metadata, content_hash := content_hash,
                prompt_hash := prompt_hash }] : List Job) = 0 := by
          simp [List.countP_cons, Ne.symm hc]
        rw [this]
        simpa using huniq cid'

/-- Witness for C5: enqueueing the already-present `conversation_id` of
`sampleJob` leaves the queue unchanged and returns false. -/
theorem add_job_idempotent_witness :
    JobQueue.add_job { jobs := [sampleJob], next_id := 8 } "c" 0 none "" "" 4
      = ({ jobs := [sampleJob], next_id := 8 }, false) :=
  (add_job_idempotent { jobs := [sampleJob], next_id := 8 } "c" 0 none "" "" 4).1
    ⟨sampleJob, by simp, by decide⟩

/-- Helper: under a unique-id hypothesis, the `SELECT ... WHERE id=?`
(`find?`) returns exactly the addressed job. -/
theorem find?_eq_of_unique {l : List Job} {j : Job} {jid : Nat}
    (hj : j ∈ l) (hid : j.id = jid)
    (huniq : ∀ j' ∈ l, j'.id = jid → j' = j) :
    l.find? (fun x => decide (x.id = jid)) = some j := by
  induction l with
  | nil => cases hj
  | cons a tl ih =>
      by_cases ha : a.id = jid
      · have haj : a = j := huniq a (List.mem_cons_self a tl) ha
        simp [List.find?_cons, ha, haj, hid]
      · have hjtl : j ∈ tl := by
          rcases List.mem_cons.mp hj with h | h
          · exact absurd (h ▸ hid) ha
          · exact h
        simpa [List.find?_cons, ha] using
          ih hjtl (fun j' hj' => huniq j' (List.mem_cons_of_mem a hj'))

/-- Helper: `fail_job` on a one-job queue, explicitly. -/
theorem fail_job_single (nid jid : Nat) (msg : String) (now : Nat) (r : Job)
    (hid : r.id = jid) :
    (JobQueue.fail_job ⟨[r], nid⟩ jid msg now).1 =
      ⟨[if r.retry_count < r.max_retries then
          { r with status := JobStatus.retry, retry_count := r.retry_count + 1,
                   error_message := some msg, started_at := none }
        else
          { r with status := JobStatus.failed, error_message := some msg,
                   completed_at := some now }], nid⟩ := by
  by_cases hrc : r.retry_count < r.max_retries <;>
    simp [JobQueue.fail_job, List.find?_cons, hid, hrc]

/-- Helper: starting from a one-job queue whose job has
`max_retries = retry_count + d`, applying `fail_job` `d + 1` times ends
with the single job Failed at `retry_count = max_retries`. -/
theorem iterate_fail_single (jid : Nat) (msg : String) (now : Nat) :
    ∀ (d : Nat) (r : Job) (nid : Nat), r.id = jid →
      r.max_retries = r.retry_count + d →
      ∃ r' : Job,
        (JobQueue.iterate_fail ⟨[r], nid⟩ jid msg now (d + 1)).jobs = [r']
        ∧ r'.status = JobStatus.failed ∧ r'.retry_count = r.max_retries := by
  intro d
  induction d with
  | zero =>
      intro r nid hid hmr
      have hrc : ¬ r.retry_count < r.max_retries := by omega
      have hjobs : (JobQueue.iterate_fail ⟨[r], nid⟩ jid msg now 1).jobs =
          [{ r with status := JobStatus.failed, error_message := some msg,
                    completed_at := some now }] := by
        show (JobQueue.iterate_fail
          (JobQueue.fail_job ⟨[r], nid⟩ jid msg now).1 jid msg now 0).jobs = _
        rw [fail_job_single nid jid msg now r hid, if_neg hrc]
        rfl
      exact ⟨_, hjobs, rfl, by simpa using hmr.symm⟩
  | succ d ih =>
      intro r nid hid hmr
      have hrc : r.retry_count < r.max_retries := by omega
      have hstep : (JobQueue.fail_job ⟨[r], nid⟩ jid msg now).1 =
          ⟨[{ r with status := JobStatus.retry,
                     retry_count := r.retry_count + 1,
                     error_message := some msg, started_at := none }], nid⟩ := by
        rw [fail_job_single nid jid msg now r hid, if_pos hrc]
      have hrec := ih { r with status := JobStatus.retry,
                               retry_count := r.retry_count + 1,
                               error_message := some msg,
                               started_at := none } nid hid (by simp; omega)
      rcases hrec with ⟨r', hr1, hr2, hr3⟩
      refine ⟨r', ?_, hr2, by simpa using hr3⟩
      show (JobQueue.iterate_fail
        (JobQueue.fail_job ⟨[r], nid⟩ jid msg now).1 jid msg now (d + 1)).jobs = _
      rw [hstep]
      exact hr1

/-- C4: `fail_job` on an existing job reads `retry_count`/`max_retries`;
with retries remaining it rewrites exactly that job to Retry with
`retry_count + 1`, the error recorded and `started_at` cleared; otherwise
it rewrites it to Failed with the error recorded and `completed_at`
stamped; both return true.  Consequently `maxRetries + 1` applications on a
fresh (`retry_count = 0`) single job end in terminal Failed with
`retry_count = max_retries`. -/
theorem fail_job_retry_then_failed (st : QueueState) (job_id : Nat)
    (msg : String) (now : Nat) (j : Job) (hj : j ∈ st.jobs)
    (hid : j.id = job_id)
    (huniq : ∀ j' ∈ st.jobs, j'.id = job_id → j' = j) :
    (j.retry_count < j.max_retries →
        (JobQueue.fail_job st job_id msg now).2 = true
        ∧ (JobQueue.fail_job st job_id msg now).1.jobs =
            st.jobs.map (fun x =>
              if x = j then
                { j with status := JobStatus.retry
                         retry_count := j.retry_count + 1
                         error_message := some msg
                         started_at := none }
              else x))
    ∧ (¬ j.retry_count < j.max_retries →
        (JobQueue.fail_job st job_id msg now).2 = true
        ∧ (JobQueue.fail_job st job_id msg now).1.jobs =
            st.jobs.map (fun x =>
              if x = j then
                { j with status := JobStatus.failed
                         error_message := some msg
                         completed_at := some now }
              else x))
    ∧ (st.jobs = [j] → j.retry_count = 0 →
        ∃ r' : Job,
          (JobQueue.iterate_fail st job_id msg now (j.max_retries + 1)).jobs = [r']
          ∧ r'.status = JobStatus.failed
          ∧ r'.retry_count = j.max_retries) := by
  have hfind := find?_eq_of_unique hj hid huniq
  have hpos : (decide (0 < st.jobs.countP
      (fun x => decide (x.id = job_id)))) = true := by
    simp only [decide_eq_true_eq, List.countP_pos_iff, decide_eq_true_eq]
    exact ⟨j, hj, hid⟩
  refine ⟨?_, ?_, ?_⟩
  · intro hlt
    constructor
    · simp only [JobQueue.fail_job, hpos]
    · simp only [JobQueue.fail_job, hfind, decide_eq_true hlt, if_pos]
      refine List.map_congr_left (fun x hx => ?_)
      by_cases hxj : x = j
      · subst hxj
        rw [if_pos hid, if_pos rfl]
      · rw [if_neg, if_neg hxj]
        exact fun hxid => hxj (huniq x hx hxid)
  · intro hge
    constructor
    · simp only [JobQueue.fail_job, hpos]
    · have : (decide (j.retry_count < j.max_retries)) = false :=
        decide_eq_false hge
      simp only [JobQueue.fail_job, hfind, this, if_neg, Bool.false_eq_true,
        not_false_eq_true]
      refine List.map_congr_left (fun x hx => ?_)
      by_cases hxj : x = j
      · subst hxj
        rw [if_pos hid, if_pos rfl]
      · rw [if_neg, if_neg hxj]
        exact fun hxid => hxj (huniq x hx hxid)
  · intro hsingle hrc0
    have hst : st = ⟨[j], st.next_id⟩ := by
      cases st
      simp only [QueueState.mk.injEq]
      exact ⟨hsingle, trivial⟩
    rw [hst]
    exact iterate_fail_single job_id msg now j.max_retries j st.next_id hid
      (by omega)

/-- Witness for C4: a single job with `retry_count = 0`, `max_retries = 3`;
four `fail_job` applications leave it Failed with `retry_count = 3`. -/
theorem fail_job_retry_then_failed_witness :
    ∃ r' : Job,
      (JobQueue.iterate_fail { jobs := [sampleJob], next_id := 8 } 7 "boom" 9
        (sampleJob.max_retries + 1)).jobs = [r']
      ∧ r'.status = JobStatus.failed
      ∧ r'.retry_count = sampleJob.max_retries :=
  (fail_job_retry_then_failed { jobs := [sampleJob], next_id := 8 } 7 "boom" 9
      sampleJob (by simp) (by decide)
      (by intro j' hj' hid'; simpa using hj')).2.2 rfl (by decide)

/-! ## Theorems about the rate limiter -/

/-- Helper: `LeakyBucket.try_acquire` never changes `capacity` or
`leak_rate`. -/
theorem try_acquire_config_frame (b : LeakyBucket) (now n : ℚ) :
    (b.try_acquire now n).1.capacity = b.capacity
    ∧ (b.try_acquire now n).1.leak_rate = b.leak_rate := by
  simp only [LeakyBucket.try_acquire, LeakyBucket.leak_tokens]
  split <;> exact ⟨rfl, rfl⟩

/-- Helper: one `try_acquire` at a non-earlier instant, for a nonnegative
request, preserves `0 ≤ tokens ≤ capacity`. -/
theorem try_acquire_invariant_step (b : LeakyBucket) (now n : ℚ)
    (ht : 0 ≤ b.tokens) (hc : b.tokens ≤ b.capacity) (hr : 0 ≤ b.leak_rate)
    (hdt : b.last_update ≤ now) (hn : 0 ≤ n) :
    0 ≤ (b.try_acquire now n).1.tokens
    ∧ (b.try_acquire now n).1.tokens ≤ (b.try_acquire now n).1.capacity := by
  have hcap : (0 : ℚ) ≤ b.capacity := ht.trans hc
  have hleak0 : (0 : ℚ) ≤ b.tokens + (now - b.last_update) * b.leak_rate :=
    add_nonneg ht (mul_nonneg (sub_nonneg.mpr hdt) hr)
  have hmin0 : (0 : ℚ) ≤ min b.capacity
      (b.tokens + (now - b.last_update) * b.leak_rate) :=
    le_min hcap hleak0
  have hminc : min b.capacity (b.tokens + (now - b.last_update) * b.leak_rate)
      ≤ b.capacity := min_le_left _ _
  simp only [LeakyBucket.try_acquire, LeakyBucket.leak_tokens]
  split
  · rename_i hok
    simp only at hok ⊢
    constructor
    · linarith
    · linarith
  · exact ⟨hmin0, hminc⟩

/-- C3: after any sequence of timed `try_acquire` calls (nonnegative
elapsed times and request sizes), a bucket that starts with
`0 ≤ tokens ≤ capacity` and a nonnegative leak rate still satisfies
`0 ≤ tokens ≤ capacity`: a debit only happens when at least the requested
amount is present, and the lazy refill is capped at `capacity`. -/
theorem leaky_bucket_invariant (b : LeakyBucket) (steps : List AcqStep)
    (ht : 0 ≤ b.tokens) (hc : b.tokens ≤ b.capacity) (hr : 0 ≤ b.leak_rate)
    (hsteps : ∀ s ∈ steps, 0 ≤ s.dt ∧ 0 ≤ s.n) :
    0 ≤ (run_steps b steps).tokens
    ∧ (run_steps b steps).tokens ≤ (run_steps b steps).capacity := by
  induction steps generalizing b with
  | nil => exact ⟨ht, hc⟩
  | cons s rest ih =>
      simp only [run_steps]
      have hs := hsteps s (List.mem_cons_self s rest)
      have hstep := try_acquire_invariant_step b (b.last_update + s.dt) s.n
        ht hc hr (le_add_of_nonneg_right hs.1) hs.2
      have hframe := try_acquire_config_frame b (b.last_update + s.dt) s.n
      exact ih _ hstep.1 (hframe.1 ▸ hstep.2) (hframe.2 ▸ hr)
        (fun s' hs' => hsteps s' (List.mem_cons_of_mem s hs'))

/-- Witness for C3 at a concrete bucket and call sequence. -/
theorem leaky_bucket_invariant_witness :
    0 ≤ (run_steps { capacity := 2, leak_rate := 1, tokens := 2, last_update := 0 }
          [{ dt := 1, n := 1 }, { dt := 0, n := 5 }, { dt := 3, n := 2 }]).tokens
    ∧ (run_steps { capacity := 2, leak_rate := 1, tokens := 2, last_update := 0 }
          [{ dt := 1, n := 1 }, { dt := 0, n := 5 }, { dt := 3, n := 2 }]).tokens
        ≤ (run_steps { capacity := 2, leak_rate := 1, tokens := 2, last_update := 0 }
          [{ dt := 1, n := 1 }, { dt := 0, n := 5 }, { dt := 3, n := 2 }]).capacity :=
  leaky_bucket_invariant _ _ (by norm_num) (by norm_num) (by norm_num)
    (by intro s hs; fin_cases hs <;> constructor <;> norm_num)

/-- Helper: `_get_chatgpt_bucket` only reads the ChatGPT bucket table and
the `gpt4o_mini` config, so updating the global bucket does not change it. -/
theorem get_chatgpt_bucket_global_update (rl : RateLimiter) (g : LeakyBucket)
    (m : String) :
    RateLimiter.get_chatgpt_bucket { rl with global_bucket := g } m
      = rl.get_chatgpt_bucket m := rfl

/-- Helper: `chatgpt_bucket_key` only reads the ChatGPT bucket table and
the `gpt4o_mini` config, so updating the global bucket does not change it. -/
theorem chatgpt_bucket_key_global_update (rl : RateLimiter) (g : LeakyBucket)
    (m : String) :
    RateLimiter.chatgpt_bucket_key { rl with global_bucket := g } m
      = rl.chatgpt_bucket_key m := rfl

/-- Helper: when `_get_chatgpt_bucket` resolves to no bucket, there is also
no dict key to debit. -/
theorem chatgpt_key_none_of_bucket_none (rl : RateLimiter) (m : String)
    (h : rl.get_chatgpt_bucket m = none) :
    rl.chatgpt_bucket_key m = none := by
  simp only [RateLimiter.get_chatgpt_bucket] at h
  simp only [RateLimiter.chatgpt_bucket_key]
  cases hlk : List.lookup m rl.chatgpt_buckets with
  | some b => rw [hlk] at h; cases h
  | none =>
      rw [hlk] at h
      simp only at h ⊢
      by_cases hm : m = "gpt4o_mini"
      · rw [if_pos hm] at h ⊢
        by_cases hat : rl.gpt4o_mini_auto_throttle
        · rw [if_pos hat] at h ⊢
          rw [h]
        · rw [if_neg hat] at h ⊢
      · rw [if_neg hm] at h ⊢

/-- Helper: the host paragraph of `try_acquire` never touches the ChatGPT
bucket table or the `gpt4o_mini` config, so `_get_chatgpt_bucket` is
unchanged by it. -/
theorem host_step_chatgpt_frame (rl2 : RateLimiter) (host : Option String)
    (n now : ℚ) (m : String) :
    ((RateLimiter.host_step rl2 host n now).1).get_chatgpt_bucket m
      = rl2.get_chatgpt_bucket m := by
  cases host with
  | none => rfl
  | some h =>
      simp only [RateLimiter.host_step, RateLimiter.get_host_bucket]
      cases hlk : List.lookup h rl2.host_buckets <;> simp [hlk] <;> rfl

/-- C8: for a model key absent from the ChatGPT bucket table the model
check resolves to no bucket — so `try_acquire` behaves exactly as if no
model had been named (nothing consulted or debited) — except the
designated alias `"gpt4o_mini"` with its auto-throttle flag set, which
resolves to the configured fallback model's bucket, and `try_acquire` then
debits that fallback bucket's table entry (the result flag is the fallback
bucket's own debit attempt and the table is rewritten at the fallback key
with the debited bucket). -/
theorem chatgpt_bucket_lookup (rl : RateLimiter) (m : String)
    (hm : List.lookup m rl.chatgpt_buckets = none) :
    (m ≠ "gpt4o_mini" → rl.get_chatgpt_bucket m = none)
    ∧ (rl.gpt4o_mini_auto_throttle = false → rl.get_chatgpt_bucket m = none)
    ∧ (m = "gpt4o_mini" → rl.gpt4o_mini_auto_throttle = true →
        rl.get_chatgpt_bucket m
          = List.lookup rl.gpt4o_mini_fallback rl.chatgpt_buckets)
    ∧ (rl.get_chatgpt_bucket m = none → ∀ host n now,
        rl.try_acquire host n (some m) now = rl.try_acquire host n none now)
    ∧ (∀ (b : LeakyBucket) (n now : ℚ),
        m = "gpt4o_mini" → rl.gpt4o_mini_auto_throttle = true →
        List.lookup rl.gpt4o_mini_fallback rl.chatgpt_buckets = some b →
        ¬ (rl.global_bucket.leak_tokens now).tokens < n →
        (rl.try_acquire none n (some m) now).2 = (b.try_acquire now n).2
        ∧ (rl.try_acquire none n (some m) now).1.chatgpt_buckets
            = RateLimiter.write_bucket rl.chatgpt_buckets
                rl.gpt4o_mini_fallback (b.try_acquire now n).1) := by
  refine ⟨?_, ?_, ?_, ?_, ?_⟩
  · intro hne
    simp only [RateLimiter.get_chatgpt_bucket, hm, if_neg hne]
  · intro hat
    simp only [RateLimiter.get_chatgpt_bucket, hm, hat]
    split <;> rfl
  · intro hgm hat
    simp only [RateLimiter.get_chatgpt_bucket, hm, if_pos hgm, hat, if_pos]
  · intro hnone host n now
    have hskip : ∀ rl2 : RateLimiter,
        rl2.get_chatgpt_bucket m = none →
        RateLimiter.model_step rl2 (some m) n now
          = RateLimiter.model_step rl2 none n now := by
      intro rl2 h2
      have hk2 := chatgpt_key_none_of_bucket_none rl2 m h2
      simp only [RateLimiter.model_step, h2, hk2]
    simp only [RateLimiter.try_acquire]
    split
    · rfl
    · split
      · rfl
      · exact hskip _ (by rw [host_step_chatgpt_frame]; exact hnone)
  · intro b n now hgm hat hfb hge
    have hget : rl.get_chatgpt_bucket m = some b := by
      simp only [RateLimiter.get_chatgpt_bucket, hm, if_pos hgm, hat, if_pos,
        hfb]
    have hkey : rl.chatgpt_bucket_key m = some rl.gpt4o_mini_fallback := by
      simp only [RateLimiter.chatgpt_bucket_key, hm, if_pos hgm, hat, if_pos,
        hfb]
    have hg : rl.global_bucket.try_acquire now n
        = ({ rl.global_bucket.leak_tokens now with
             tokens := (rl.global_bucket.leak_tokens now).tokens - n }, true) := by
      simp only [LeakyBucket.try_acquire]
      rw [if_pos (not_lt.mp hge)]
    constructor <;>
      simp [RateLimiter.try_acquire, RateLimiter.host_step,
        RateLimiter.model_step, hg, get_chatgpt_bucket_global_update,
        chatgpt_bucket_key_global_update, hget, hkey]

/-- Witness for C8: an unknown model key resolves to no bucket, and the
auto-throttled `gpt4o_mini` alias call debits the fallback `gpt4o` bucket
entry. -/
theorem chatgpt_bucket_lookup_witness :
    sampleLimiter.get_chatgpt_bucket "o9-experimental" = none
    ∧ ((RateLimiter.try_acquire aliasLimiter none 1 (some "gpt4o_mini") 0).2
        = (emptyModelBucket.try_acquire 0 1).2
      ∧ (RateLimiter.try_acquire aliasLimiter none 1
          (some "gpt4o_mini") 0).1.chatgpt_buckets
        = RateLimiter.write_bucket aliasLimiter.chatgpt_buckets
            aliasLimiter.gpt4o_mini_fallback (emptyModelBucket.try_acquire 0 1).1) :=
  ⟨(chatgpt_bucket_lookup sampleLimiter "o9-experimental" (by decide)).1
      (by decide),
   (chatgpt_bucket_lookup aliasLimiter "gpt4o_mini" (by decide)).2.2.2.2
     emptyModelBucket 1 0 rfl rfl rfl
     (by norm_num [aliasLimiter, sampleLimiter, fullGlobalBucket,
       LeakyBucket.leak_tokens])⟩

/-- C2 counterexample: a request that passes the Global bucket check but
fails the model bucket check returns false with the Global bucket already
debited (5 → 4 tokens), so a failed `try_acquire` does *not* leave every
bucket's token count unchanged. -/
theorem try_acquire_partial_debit_cex :
    (RateLimiter.try_acquire sampleLimiter none 1 (some "gpt4o") 0).2 = false
    ∧ sampleLimiter.global_bucket.tokens = 5
    ∧ (RateLimiter.try_acquire sampleLimiter none 1
        (some "gpt4o") 0).1.global_bucket.tokens = 4 := by
  norm_num [RateLimiter.try_acquire, RateLimiter.host_step, RateLimiter.model_step,
    RateLimiter.get_chatgpt_bucket, RateLimiter.chatgpt_bucket_key,
    RateLimiter.write_bucket, LeakyBucket.try_acquire, LeakyBucket.leak_tokens,
    sampleLimiter, fullGlobalBucket, emptyModelBucket, List.lookup]

/-- Helper: whenever `_get_chatgpt_bucket` resolves to a bucket, that
bucket lives under some dict key. -/
theorem chatgpt_key_some_of_bucket_some (rl : RateLimiter) (m : String)
    (b : LeakyBucket) (h : rl.get_chatgpt_bucket m = some b) :
    (rl.chatgpt_bucket_key m = some m
      ∧ List.lookup m rl.chatgpt_buckets = some b)
    ∨ (rl.chatgpt_bucket_key m = some rl.gpt4o_mini_fallback
      ∧ List.lookup rl.gpt4o_mini_fallback rl.chatgpt_buckets = some b) := by
  simp only [RateLimiter.get_chatgpt_bucket] at h
  simp only [RateLimiter.chatgpt_bucket_key]
  cases hlk : List.lookup m rl.chatgpt_buckets with
  | some b' =>
      rw [hlk] at h
      left
      exact ⟨rfl, by simpa using h⟩
  | none =>
      rw [hlk] at h
      simp only at h ⊢
      by_cases hm : m = "gpt4o_mini"
      · rw [if_pos hm] at h ⊢
        by_cases hat : rl.gpt4o_mini_auto_throttle
        · rw [if_pos hat] at h ⊢
          right
          rw [h]
          exact ⟨rfl, rfl⟩
        · rw [if_neg hat] at h
          cases h
      · rw [if_neg hm] at h
        cases h

/-- Helper: `_get_host_bucket` returns the same bucket whether or not the
global bucket field was updated first (it only reads the host table and
host config). -/
theorem get_host_bucket_global_update (rl : RateLimiter) (g : LeakyBucket)
    (h : String) (now : ℚ) :
    (RateLimiter.get_host_bucket { rl with global_bucket := g } h now).2
      = (rl.get_host_bucket h now).2 := by
  simp only [RateLimiter.get_host_bucket]
  cases List.lookup h rl.host_buckets <;> rfl

/-- Helper: `_get_host_bucket` never changes the global bucket (it only
inserts into the host table). -/
theorem get_host_bucket_global_frame (rl : RateLimiter) (h : String)
    (now : ℚ) :
    (rl.get_host_bucket h now).1.global_bucket = rl.global_bucket := by
  simp only [RateLimiter.get_host_bucket]
  cases List.lookup h rl.host_buckets <;> rfl

/-- C2 (amended): `try_acquire` checks buckets in order Global, host,
model, debiting each bucket as it is checked and never rolling back: when
the Global check itself fails the call returns false with no bucket
debited (the Global bucket is only lazily refilled), but when a later
check fails — the resource (host) bucket or the model bucket — after the
Global check succeeded, the call returns false with the Global bucket left
debited by the requested amount. -/
theorem try_acquire_sequential_debit (rl : RateLimiter) (n now : ℚ) :
    (∀ (host model : Option String),
      (rl.global_bucket.leak_tokens now).tokens < n →
        rl.try_acquire host n model now
          = ({ rl with global_bucket := rl.global_bucket.leak_tokens now },
             false))
    ∧ (∀ (h : String) (model : Option String),
      ¬ (rl.global_bucket.leak_tokens now).tokens < n →
        (((rl.get_host_bucket h now).2).leak_tokens now).tokens < n →
        (rl.try_acquire (some h) n model now).2 = false
        ∧ (rl.try_acquire (some h) n model now).1.global_bucket.tokens
            = (rl.global_bucket.leak_tokens now).tokens - n)
    ∧ (∀ (m : String) (b : LeakyBucket),
      ¬ (rl.global_bucket.leak_tokens now).tokens < n →
        rl.get_chatgpt_bucket m = some b →
        (b.leak_tokens now).tokens < n →
        (rl.try_acquire none n (some m) now).2 = false
        ∧ (rl.try_acquire none n (some m) now).1.global_bucket.tokens
            = (rl.global_bucket.leak_tokens now).tokens - n) := by
  refine ⟨?_, ?_, ?_⟩
  · intro host model hlt
    have hg : rl.global_bucket.try_acquire now n
        = (rl.global_bucket.leak_tokens now, false) := by
      simp only [LeakyBucket.try_acquire]
      rw [if_neg (not_le.mpr hlt)]
    simp [RateLimiter.try_acquire, hg]
  · intro h model hge hblt
    have hg : rl.global_bucket.try_acquire now n
        = ({ rl.global_bucket.leak_tokens now with
             tokens := (rl.global_bucket.leak_tokens now).tokens - n }, true) := by
      simp only [LeakyBucket.try_acquire]
      rw [if_pos (not_lt.mp hge)]
    have hb : ((rl.get_host_bucket h now).2).try_acquire now n
        = (((rl.get_host_bucket h now).2).leak_tokens now, false) := by
      simp only [LeakyBucket.try_acquire]
      rw [if_neg (not_le.mpr hblt)]
    simp [RateLimiter.try_acquire, RateLimiter.host_step, hg,
      get_host_bucket_global_update, hb, get_host_bucket_global_frame]
  · intro m b hge hgb hblt
    have hg : rl.global_bucket.try_acquire now n
        = ({ rl.global_bucket.leak_tokens now with
             tokens := (rl.global_bucket.leak_tokens now).tokens - n }, true) := by
      simp only [LeakyBucket.try_acquire]
      rw [if_pos (not_lt.mp hge)]
    have hb : b.try_acquire now n = (b.leak_tokens now, false) := by
      simp only [LeakyBucket.try_acquire]
      rw [if_neg (not_le.mpr hblt)]
    rcases chatgpt_key_some_of_bucket_some rl m b hgb with ⟨hk, _⟩ | ⟨hk, _⟩ <;>
      simp [RateLimiter.try_acquire, RateLimiter.host_step, RateLimiter.model_step,
        hg, hb, get_chatgpt_bucket_global_update, chatgpt_bucket_key_global_update,
        hgb, hk, RateLimiter.write_bucket]

/-- Witness for C2 (amended), at the concrete limiter of the
counterexample: both a model-bucket failure and a resource (host) bucket
failure leave the Global bucket debited. -/
theorem try_acquire_sequential_debit_witness :
    ((RateLimiter.try_acquire sampleLimiter none 1 (some "gpt4o") 0).2 = false
      ∧ (RateLimiter.try_acquire sampleLimiter none 1
          (some "gpt4o") 0).1.global_bucket.tokens
        = (sampleLimiter.global_bucket.leak_tokens 0).tokens - 1)
    ∧ ((RateLimiter.try_acquire sampleLimiter (some "chatgpt.com") 1 none 0).2
          = false
      ∧ (RateLimiter.try_acquire sampleLimiter (some "chatgpt.com") 1
          none 0).1.global_bucket.tokens
        = (sampleLimiter.global_bucket.leak_tokens 0).tokens - 1) :=
  ⟨(try_acquire_sequential_debit sampleLimiter 1 0).2.2 "gpt4o" emptyModelBucket
      (by norm_num [sampleLimiter, fullGlobalBucket, LeakyBucket.leak_tokens])
      (by norm_num [sampleLimiter, RateLimiter.get_chatgpt_bucket, List.lookup,
        emptyModelBucket])
      (by norm_num [emptyModelBucket, LeakyBucket.leak_tokens]),
    (try_acquire_sequential_debit sampleLimiter 1 0).2.1 "chatgpt.com" none
      (by norm_num [sampleLimiter, fullGlobalBucket, LeakyBucket.leak_tokens])
      (by norm_num [sampleLimiter, RateLimiter.get_host_bucket, List.lookup,
        LeakyBucket.leak_tokens])⟩

/-! ## Theorems about the adaptive extractor -/

namespace AdaptiveExtractor

/-- Helper: the extraction pass only ever adds hrefs to `seen_urls`. -/
theorem extract_seen_mono (x : String) :
    ∀ (es : List Elem) (i : Nat) (convs : List Conv) (seen : List String)
      (k : Nat), seen.contains x = true →
      ((extractNew i convs seen k es).2.1).contains x = true := by
  intro es
  induction es with
  | nil =>
      intro i convs seen k hx
      simpa [extractNew] using hx
  | cons e rest ih =>
      intro i convs seen k hx
      simp only [extractNew]
      split
      · exact ih _ _ _ _ hx
      · split
        · exact ih _ _ _ _ (by simp only [List.contains_cons, hx, Bool.or_true])
        · exact ih _ _ _ _ hx

/-- Helper: when every element is blocked by the current `seen_urls` set,
the extraction pass is the identity and reports zero new conversations. -/
theorem extract_blocked :
    ∀ (es : List Elem) (i : Nat) (convs : List Conv) (seen : List String)
      (k : Nat), (∀ e ∈ es, blockedElem seen e) →
      extractNew i convs seen k es = (convs, seen, k) := by
  intro es
  induction es with
  | nil => intro i convs seen k _; rfl
  | cons e rest ih =>
      intro i convs seen k hb
      have hrest : ∀ e' ∈ rest, blockedElem seen e' :=
        fun e' he' => hb e' (List.mem_cons_of_mem e he')
      simp only [extractNew]
      split
      · exact ih _ _ _ _ hrest
      · rename_i h he
        have hcond : (decide (h ≠ "") && decide (pyStrip e.text ≠ "")
            && strContains h "/c/" && !seen.contains h) = false := by
          rcases hb e (List.mem_cons_self e rest) h he with h1 | h1 | h1 | h1
          · simp [h1]
          · simp [h1]
          · simp [h1]
          · simp only [h1, Bool.not_true, Bool.and_false]
        rw [hcond]
        simpa using ih _ _ _ _ hrest

/-- Helper: after an extraction pass, every element of the processed list
is blocked by the resulting `seen_urls` set (everything extractable from
those elements has been seen). -/
theorem extract_covers :
    ∀ (es : List Elem) (i : Nat) (convs : List Conv) (seen : List String)
      (k : Nat), ∀ e ∈ es,
      blockedElem ((extractNew i convs seen k es).2.1) e := by
  intro es
  induction es with
  | nil => intro i convs seen k e he; cases he
  | cons e rest ih =>
      intro i convs seen k x hx
      rcases List.mem_cons.mp hx with hxe | hxrest
      · subst hxe
        simp only [extractNew]
        split
        · rename_i he
          intro h' hh'
          rw [he] at hh'
          cases hh'
        · rename_i h he
          split
          · rename_i hcond
            intro h' hh'
            rw [he] at hh'
            cases hh'
            right; right; right
            exact extract_seen_mono h rest _ _ _ _
              (by simp [List.contains_cons])
          · rename_i hcond
            intro h' hh'
            rw [he] at hh'
            cases hh'
            have himp : ¬ h = "" → ¬ pyStrip x.text = "" →
                strContains h "/c/" = true → h ∈ seen := by
              simpa [Bool.and_eq_false_iff, decide_eq_false_iff_not,
                not_not, Bool.not_eq_false', or_assoc] using hcond
            have hdis : h = "" ∨ pyStrip x.text = ""
                ∨ strContains h "/c/" = false
                ∨ seen.contains h = true := by
              by_cases h1 : h = ""
              · exact Or.inl h1
              by_cases h2 : pyStrip x.text = ""
              · exact Or.inr (Or.inl h2)
              cases h3 : strContains h "/c/" with
              | false => exact Or.inr (Or.inr (Or.inl rfl))
              | true =>
                  exact Or.inr (Or.inr (Or.inr
                    (List.elem_eq_true_of_mem (himp h1 h2 h3))))
            rcases hdis with h1 | h1 | h1 | h1
            · exact Or.inl h1
            · exact Or.inr (Or.inl h1)
            · exact Or.inr (Or.inr (Or.inl h1))
            · right; right; right
              exact extract_seen_mono h rest _ _ _ _ h1
      · simp only [extractNew]
        split
        · exact ih _ _ _ _ x hxrest
        · split
          · exact ih _ _ _ _ x hxrest
          · exact ih _ _ _ _ x hxrest

/-- Helper: the scroll loop performs at most `fuel` further iterations, so
the final `scroll_attempts` counter is bounded by `attempts + fuel`. -/
theorem scroll_bound (views : Nat → List Elem) :
    ∀ (fuel attempts : Nat) (convs : List Conv) (seen : List String)
      (lastCount noNew : Nat),
      (scrollLoopAux views fuel attempts convs seen lastCount noNew).2
        ≤ attempts + fuel := by
  intro fuel
  induction fuel with
  | zero =>
      intro attempts convs seen lc nn
      simp [scrollLoopAux]
  | succ fuel ih =>
      intro attempts convs seen lc nn
      simp only [scrollLoopAux]
      split
      · show attempts ≤ attempts + (fuel + 1)
        omega
      · split
        · split
          · show attempts + 1 ≤ attempts + (fuel + 1)
            omega
          · exact le_trans (ih (attempts + 1) _ _ _ _) (by omega)
        · exact le_trans (ih (attempts + 1) _ _ _ _) (by omega)

/-- Helper: once the current `seen_urls` set blocks every element the
(constant) source keeps presenting, the loop stops within `2 - noNew`
further iterations: each pass finds zero new conversations, so the
stability counter reaches 3. -/
theorem covered_stops (es : List Elem) :
    ∀ (fuel noNew attempts : Nat) (convs : List Conv) (seen : List String)
      (lc : Nat),
      (∀ e ∈ es, blockedElem seen e) → noNew ≤ 2 → 3 - noNew ≤ fuel →
      (scrollLoopAux (fun _ => es) fuel attempts convs seen lc noNew).2
        ≤ attempts + (2 - noNew) := by
  intro fuel
  induction fuel with
  | zero =>
      intro noNew attempts convs seen lc hcov hn hf
      omega
  | succ fuel ih =>
      intro noNew attempts convs seen lc hcov hn hf
      simp only [scrollLoopAux]
      rw [extract_blocked es 0 convs seen 0 hcov]
      by_cases hb : noNew + 1 ≥ 3
      · rw [if_pos ⟨rfl, hb⟩]
        show attempts ≤ attempts + (2 - noNew)
        omega
      · rw [if_neg (fun hc => hb hc.2)]
        rw [if_pos (show ((convs, seen, 0) :
            List Conv × List String × Nat).2.2 = 0 from rfl)]
        split
        · split
          · show attempts + 1 ≤ attempts + (2 - noNew)
            omega
          · exact le_trans (ih (noNew + 1) (attempts + 1) _ _ _ hcov
              (by omega) (by omega)) (by omega)
        · exact le_trans (ih (noNew + 1) (attempts + 1) _ _ _ hcov
            (by omega) (by omega)) (by omega)

/-- Helper: against a constant source, the loop started fresh stops after
at most 3 scroll attempts (the first pass sees everything; the stability
counter then runs out). -/
theorem const_source_stops_early (es : List Elem) (fuel : Nat)
    (hfuel : 3 ≤ fuel) :
    (scrollLoopAux (fun _ => es) (fuel + 1) 0 [] [] 0 0).2 ≤ 3 := by
  simp only [scrollLoopAux]
  have hcov : ∀ e ∈ es,
      blockedElem ((extractNew 0 [] [] 0 es).2.1) e :=
    extract_covers es 0 [] [] 0
  rw [if_neg (fun hc => by omega)]
  by_cases hz : (extractNew 0 [] [] 0 es).2.2 = 0
  · rw [if_pos hz]
    split
    · split
      · omega
      · exact le_trans (covered_stops es fuel 1 1 _ _ _ hcov
          (by omega) (by omega)) (by omega)
    · exact le_trans (covered_stops es fuel 1 1 _ _ _ hcov
        (by omega) (by omega)) (by omega)
  · rw [if_neg hz]
    split
    · split
      · omega
      · exact le_trans (covered_stops es fuel 0 1 _ _ _ hcov
          (by omega) (by omega)) (by omega)
    · exact le_trans (covered_stops es fuel 0 1 _ _ _ hcov
        (by omega) (by omega)) (by omega)

/-- C6: the incremental-collection loop terminates for every driver
behavior: the returned scroll-attempt count never exceeds the hard cap of
50 iterations, and against a source whose element list never changes the
stability window stops the loop after at most 3 attempts — whichever comes
first. -/
theorem scrolling_loop_bounded :
    (∀ views : Nat → List Elem,
      (extract_conversations_with_scrolling views).2 ≤ 50)
    ∧ (∀ es : List Elem,
      (extract_conversations_with_scrolling (fun _ => es)).2 ≤ 3) := by
  constructor
  · intro views
    exact le_trans (scroll_bound views 50 0 [] [] 0 0) (by omega)
  · intro es
    exact const_source_stops_early es 49 (by omega)

/-- Helper: the extraction pass preserves the invariant that collected
conversation urls are pairwise distinct and all recorded in `seen_urls`
(each href is admitted only when not yet seen, then immediately added). -/
theorem extract_nodup :
    ∀ (es : List Elem) (i : Nat) (convs : List Conv) (seen : List String)
      (k : Nat),
      (convs.map Conv.url).Nodup →
      (∀ c ∈ convs, seen.contains c.url = true) →
      ((((extractNew i convs seen k es).1).map Conv.url).Nodup
       ∧ ∀ c ∈ (extractNew i convs seen k es).1,
           ((extractNew i convs seen k es).2.1).contains c.url = true) := by
  intro es
  induction es with
  | nil => intro i convs seen k h1 h2; exact ⟨h1, h2⟩
  | cons e rest ih =>
      intro i convs seen k h1 h2
      simp only [extractNew]
      split
      · exact ih _ _ _ _ h1 h2
      · rename_i h he
        split
        · rename_i hcond
          have hnotseen : seen.contains h = false := by
            simp only [Bool.and_eq_true, Bool.not_eq_true'] at hcond
            exact hcond.2
          apply ih
          · rw [List.map_append]
            refine List.Nodup.append h1 (by simp) ?_
            intro u hu hu'
            simp only [List.map_cons, List.map_nil, List.mem_cons,
              List.not_mem_nil, or_false] at hu'
            rcases List.mem_map.mp hu with ⟨c, hc, hcu⟩
            have := h2 c hc
            rw [hcu, hu', hnotseen] at this
            cases this
          · intro c hc
            rcases List.mem_append.mp hc with hcl | hcr
            · have := h2 c hcl
              simp only [List.contains_cons, this, Bool.or_true]
            · simp only [List.mem_cons, List.not_mem_nil, or_false] at hcr
              subst hcr
              simp [List.contains_cons]
        · exact ih _ _ _ _ h1 h2

/-- Helper: the scroll loop preserves the url-distinctness invariant, so
its final conversation list has pairwise distinct urls. -/
theorem loop_nodup (views : Nat → List Elem) :
    ∀ (fuel attempts : Nat) (convs : List Conv) (seen : List String)
      (lc nn : Nat),
      (convs.map Conv.url).Nodup →
      (∀ c ∈ convs, seen.contains c.url = true) →
      (((scrollLoopAux views fuel attempts convs seen lc nn).1.map
          Conv.url).Nodup) := by
  intro fuel
  induction fuel with
  | zero =>
      intro attempts convs seen lc nn h1 h2
      simpa [scrollLoopAux] using h1
  | succ fuel ih =>
      intro attempts convs seen lc nn h1 h2
      simp only [scrollLoopAux]
      have hex := extract_nodup (views attempts) 0 convs seen 0 h1 h2
      split
      · exact hex.1
      · split
        · split
          · exact hex.1
          · exact ih _ _ _ _ _ hex.1 hex.2
        · exact ih _ _ _ _ _ hex.1 hex.2

/-- C7 (amended): every record list produced by the selector-driven
incremental collection pass is de-duplicated by source URL — no two
returned records share a `url`. -/
theorem scrolling_urls_nodup (views : Nat → List Elem) :
    ((extract_conversations_with_scrolling views).1.map Conv.url).Nodup :=
  loop_nodup views 50 0 [] [] 0 0 (by simp) (by simp)

/-- C7 counterexample: the fallback extraction path has no `seen_urls`
de-duplication — a page presenting the same conversation link twice yields
two records with the same url, so dedup does not hold on every return
path. -/
theorem fallback_extraction_dup_cex :
    ¬ ((fallback_extraction [sampleLink, sampleLink]).map Conv.url).Nodup := by
  decide

end AdaptiveExtractor
